import Mathlib

/-!
Verification development for the SVN acoustic-data decoder
(`svn parser/svnparser.py`) and the log-energy averager
(`acoustic-pressure/pressure.py`).

The Python sources are shallowly embedded:
* a byte source is a `List Nat` read strictly forward;
* Python `file.read(n)` returns at most `n` bytes (all remaining bytes when
  `n` is negative, as for buffered readers) and never fails, which the
  embedding reproduces exactly;
* Python `int.from_bytes(_, 'little', signed=True)` is `parse_bytes`;
* Python `//` and `%` on ints (floor division, nonnegative remainder for a
  positive divisor) are Lean's euclidean `/` and `%` on `Int`, which agree
  with Python's semantics for the positive divisors used here; the bit
  operations in the date decoder (`& 0x1F`, `>> 5`, ...) are likewise
  rendered as `%` and `/` by powers of two, which is exactly Python's
  semantics of `&` and `>>` on (possibly negative) ints;
* the floating-point arithmetic of the averager is modelled over `ℝ`
  (and the parser's fixed-point divisions over `ℚ`);
* the parser object `svn_parser` becomes the explicit state `ParserState`
  threaded through the decoding functions;
* the unbounded `while True` dispatch loop becomes a fuel-indexed
  recursion (`none` = the loop did not finish within the given fuel).
-/

/-- Python `int.from_bytes(bs, 'little')` (unsigned part): little-endian
base-256 value of a byte list. -/
def from_bytes_le : List Nat → Nat
  | [] => 0
  | b :: bs => b + 256 * from_bytes_le bs

/-- `parse_bytes` from svnparser.py: Python
`int.from_bytes(byte, byteorder='little', signed=True)`,
two's-complement little-endian decode of however many bytes were supplied
(an empty read decodes to 0). -/
def parse_bytes (bs : List Nat) : Int :=
  let u := from_bytes_le bs
  if u < 2 ^ (8 * bs.length - 1) then (u : Int) else (u : Int) - 2 ^ (8 * bs.length)

/-- Python `file.read(n)`: returns the first `min n remaining` bytes and the
rest of the source; a negative `n` reads everything that remains (semantics
of `io.BufferedReader.read` with a negative size).  A short or empty result
is returned as-is, never an error. -/
def readBytes (n : Int) (src : List Nat) : List Nat × List Nat :=
  if n < 0 then (src, []) else (src.take n.toNat, src.drop n.toNat)

/-- `decompress_time` from svnparser.py:
`second = (time % 30) * 2; minute = (time // 30) % 60; hour = time // 1800`,
returned as `(hour, minute, second)`.  Lean's `/` and `%` on `Int` are
euclidean division, which agrees with Python's `//` and `%` for the
positive divisors used here. -/
def decompress_time (time : Int) : Int × Int × Int :=
  (time / 1800, (time / 30) % 60, (time % 30) * 2)

/-- `decompress_date` from svnparser.py:
`day = date & 0x1F; month = (date >> 5) & 0x0F; year = (date >> 9) & 0x7F`,
returned as `(day, month, year + 2000)`.  Python `& (2^k - 1)` and `>> k`
on (possibly negative) ints are exactly euclidean `% 2^k` and `/ 2^k`. -/
def decompress_date (date : Int) : Int × Int × Int :=
  (date % 32, (date / 32) % 16, (date / 512) % 128 + 2000)

/-- `CONTAINERS` from svnparser.py: headers which contain other headers. -/
def CONTAINERS : List Nat := [7, 9, 14]

/-- `FREQUENCIES` from svnparser.py: the 45 nominal band centre labels. -/
def FREQUENCIES : List String :=
  ["0.8Hz", "1Hz", "1.25Hz", "1.6Hz", "2Hz", "2.5Hz", "3.15Hz", "4Hz", "5Hz", "6.3Hz",
   "8Hz", "10Hz", "12.5Hz", "16Hz", "20Hz", "25Hz", "31.5Hz", "40Hz", "50Hz", "63Hz",
   "80Hz", "100Hz", "125Hz", "160Hz", "200Hz", "250Hz", "315Hz", "400Hz", "500Hz", "630Hz",
   "800Hz", "1000Hz", "1250Hz", "1600Hz", "2000Hz", "2500Hz", "3150Hz", "4000Hz", "5000Hz", "6300Hz",
   "8000Hz", "10000Hz", "12500Hz", "16000Hz", "20000Hz"]

/-- The mutable attributes of the Python class `svn_parser`.  File-name
fields keep the raw bytes that Python would decode as UTF-16. -/
structure ParserState where
  data : Option (List (List ℚ))
  sampled_data : Option (List (List (List ℚ)))
  leq : Option (List (List ℚ))
  channels : Nat
  samples : Int
  frequencies : Int
  totals : Int
  step : Int
  file : List Nat
  associated_file : List Nat
  date : Option (Int × Int × Int)
  time : Option (Int × Int × Int)
  deriving DecidableEq, Repr

/-- `svn_parser.__init__`: the constructor defaults. -/
def init_state : ParserState :=
  { data := none, sampled_data := none, leq := none,
    channels := 3, samples := 160, frequencies := (FREQUENCIES.length : Int),
    totals := 3, step := 100,
    file := [], associated_file := [], date := none, time := none }

/-- The inner loop of `read_main_contents`: read `n` signed 16-bit words,
each scaled by `/ 100` (Python's float division rendered as the exact
rational `mkRat _ 100`). -/
def read_values : Nat → List Nat → List ℚ × List Nat
  | 0, src => ([], src)
  | n + 1, src =>
    let s := readBytes 2 src
    let rest := read_values n s.2
    (mkRat (parse_bytes s.1) 100 :: rest.1, rest.2)

/-- One sub-record of `read_main_contents`: sub-tag byte, 3 skipped bytes,
tercet count word, totals count word, then the value words; values are
appended to `data[channel // 2]` only when the sub-tag is `0x10`. -/
def main_sub_step (acc : ParserState × List Nat) (channel : Nat) : ParserState × List Nat :=
  let st := acc.1
  let s_hdr := readBytes 1 acc.2
  let header := from_bytes_le s_hdr.1
  let s_skip := readBytes 3 s_hdr.2
  let s_freq := readBytes 2 s_skip.2
  let freqs := parse_bytes s_freq.1
  let s_tot := readBytes 2 s_freq.2
  let tots := parse_bytes s_tot.1
  let vals := read_values (freqs + tots).toNat s_tot.2
  let st1 := { st with frequencies := freqs, totals := tots }
  let st2 :=
    if header = 16 then
      { st1 with data := st1.data.map (fun d =>
          d.set (channel / 2) (d.getD (channel / 2) [] ++ vals.1)) }
    else st1
  (st2, vals.2)

/-- `svn_parser.read_main_contents`: reset `data` to one empty list per
channel, then read `channels * 2` sub-records. -/
def read_main_contents (st : ParserState) (src : List Nat) : ParserState × List Nat :=
  let st0 := { st with data := some (List.replicate st.channels ([] : List ℚ)) }
  (List.range (st0.channels * 2)).foldl main_sub_step (st0, src)

/-- `m[i][j] = v` on a list-of-lists (out-of-range writes are no-ops; the
Python code only ever writes in range). -/
def set2 (m : List (List ℚ)) (i j : Nat) (v : ℚ) : List (List ℚ) :=
  m.set i ((m.getD i []).set j v)

/-- `m[c][i][j] = v` on a list-of-lists-of-lists. -/
def set3 (m : List (List (List ℚ))) (c i j : Nat) (v : ℚ) : List (List (List ℚ)) :=
  m.set c (set2 (m.getD c []) i j v)

/-- `read_buffer_contents`, Leq part of one sample: one signed word per
channel, scaled by `/ 20`, stored in `leq[channel][sample]`. -/
def buffer_leq_step (sample : Nat) (acc : List (List ℚ) × List Nat) (channel : Nat) :
    List (List ℚ) × List Nat :=
  let s := readBytes 2 acc.2
  (set2 acc.1 channel sample (mkRat (parse_bytes s.1) 20), s.2)

/-- `read_buffer_contents`, one value word of one channel of one sample,
scaled by `/ 10`, stored in `sampled_data[channel][value][sample]`. -/
def buffer_values_step (channel sample : Nat)
    (acc : List (List (List ℚ)) × List Nat) (value : Nat) :
    List (List (List ℚ)) × List Nat :=
  let s := readBytes 2 acc.2
  (set3 acc.1 channel value sample (mkRat (parse_bytes s.1) 10), s.2)

/-- `read_buffer_contents`, one channel of one sample: a guard word (checked
against 0 only for a diagnostic print, with no effect on the result), then
`frequencies + totals` value words. -/
def buffer_channel_step (ft sample : Nat)
    (acc : List (List (List ℚ)) × List Nat) (channel : Nat) :
    List (List (List ℚ)) × List Nat :=
  let s_guard := readBytes 2 acc.2
  (List.range ft).foldl (buffer_values_step channel sample) (acc.1, s_guard.2)

/-- `read_buffer_contents`, one sample: 3 Leq words, then for each of the
3 channels a guard word and the value words. -/
def buffer_sample_step (ft : Nat)
    (acc : (List (List ℚ) × List (List (List ℚ))) × List Nat) (sample : Nat) :
    (List (List ℚ) × List (List (List ℚ))) × List Nat :=
  let l := (List.range 3).foldl (buffer_leq_step sample) (acc.1.1, acc.2)
  let d := (List.range 3).foldl (buffer_channel_step ft sample) (acc.1.2, l.2)
  ((l.1, d.1), d.2)

/-- `svn_parser.read_buffer_contents`: set `channels := 3`, `totals := 3`,
preallocate `sampled_data : [channels][frequencies+totals][samples]` and
`leq : [channels][samples]` from the *current* parser state, then fill them
sample by sample. -/
def read_buffer_contents (st : ParserState) (src : List Nat) : ParserState × List Nat :=
  let st0 := { st with channels := 3, totals := 3 }
  let ft := (st0.frequencies + st0.totals).toNat
  let sampleCount := st0.samples.toNat
  let sd0 := List.replicate 3 (List.replicate ft (List.replicate sampleCount (0 : ℚ)))
  let leq0 := List.replicate 3 (List.replicate sampleCount (0 : ℚ))
  let r := (List.range sampleCount).foldl (buffer_sample_step ft) ((leq0, sd0), src)
  ({ st0 with sampled_data := some r.1.2, leq := some r.1.1 }, r.2)

/-- The `while True` header-dispatch loop of `svn_parser.load`, indexed by
fuel (`none` = the loop did not terminate within `fuel` iterations).
Returns the state and the unread remainder of the source. -/
def load_loop : Nat → ParserState → List Nat → Option (ParserState × List Nat)
  | 0, _, _ => none
  | fuel + 1, st, src0 =>
    let s_hdr := readBytes 1 src0
    let header := from_bytes_le s_hdr.1
    let s_len := readBytes 1 s_hdr.2
    let length0 := from_bytes_le s_len.1
    if header ∈ CONTAINERS then
      load_loop fuel st (readBytes 2 s_len.2).2
    else
      let length : Int :=
        if length0 = 0 then (from_bytes_le (readBytes 2 s_len.2).1 : Int) - 1
        else (length0 : Int)
      let src1 := if length0 = 0 then (readBytes 2 s_len.2).2 else s_len.2
      if header = 1 then
        let s_name := readBytes 8 src1
        let s_skip := readBytes 2 s_name.2
        let s_date := readBytes 2 s_skip.2
        let s_time := readBytes 2 s_date.2
        let s_assoc := readBytes 8 s_time.2
        load_loop fuel
          { st with file := s_name.1,
                    date := some (decompress_date (parse_bytes s_date.1)),
                    time := some (decompress_time (parse_bytes s_time.1)),
                    associated_file := s_assoc.1 } s_assoc.2
      else if header = 24 then
        let s_skip1 := readBytes 4 src1
        let s_step := readBytes 2 s_skip1.2
        let s_skip2 := readBytes 4 s_step.2
        let s_samp := readBytes 4 s_skip2.2
        let s_rest := readBytes (2 * (length - 8)) s_samp.2
        load_loop fuel
          { st with step := parse_bytes s_step.1, samples := parse_bytes s_samp.1 } s_rest.2
      else
        let s_payload := readBytes (2 * (length - 1)) src1
        if header = 33 then some (read_buffer_contents st s_payload.2)
        else if header = 25 then some (read_main_contents st s_payload.2)
        else load_loop fuel st s_payload.2

/-- `svn_parser.load`: skip the 32-byte stamp, run the dispatch loop, then
read the 2 trailing bytes and report success exactly when they equal
`FF FF`. -/
def load (fuel : Nat) (st : ParserState) (src : List Nat) : Option (ParserState × Bool) :=
  let body := (readBytes 32 src).2
  match load_loop fuel st body with
  | none => none
  | some r => some (r.1, decide ((readBytes 2 r.2).1 = [255, 255]))

/-- The slice `data[channel][18:39] + data[channel][-3:]` of
`svn_parser.get_data` (Python negative slices on a list shorter than 3
return the whole list, matching truncated `Nat` subtraction here). -/
def band_select (row : List ℚ) : List ℚ :=
  (row.drop 18).take 21 ++ row.drop (row.length - 3)

/-- `svn_parser.get_data`: project one channel of `data` (Python raises if
`data` is `None` or the channel is out of range, modelled as `none`). -/
def get_data (st : ParserState) (channel : Nat) : Option (List ℚ) :=
  st.data.bind (fun d => (d.get? channel).map band_select)

/-- `m` is an `r × c` matrix: `r` rows, each of length `c`. -/
def shape2ok (r c : Nat) (m : List (List ℚ)) : Bool :=
  m.length == r && m.all (fun row => row.length == c)

/-- `m` is an `a × b × c` array. -/
def shape3ok (a b c : Nat) (m : List (List (List ℚ))) : Bool :=
  m.length == a && m.all (fun plane => shape2ok b c plane)

/-- Walks a byte source exactly as the dispatch loop of `load_loop` does and
decides whether the traversal reaches a buffer-contents record (tag `0x21`)
before any buffer-header record (tag `0x18`) and before any main-results
record (tag `0x19`), within the given fuel. -/
def reaches_buffer_no_header : Nat → List Nat → Bool
  | 0, _ => false
  | fuel + 1, src0 =>
    let s_hdr := readBytes 1 src0
    let header := from_bytes_le s_hdr.1
    let s_len := readBytes 1 s_hdr.2
    let length0 := from_bytes_le s_len.1
    if header ∈ CONTAINERS then
      reaches_buffer_no_header fuel (readBytes 2 s_len.2).2
    else
      let length : Int :=
        if length0 = 0 then (from_bytes_le (readBytes 2 s_len.2).1 : Int) - 1
        else (length0 : Int)
      let src1 := if length0 = 0 then (readBytes 2 s_len.2).2 else s_len.2
      if header = 1 then
        let s_name := readBytes 8 src1
        let s_skip := readBytes 2 s_name.2
        let s_date := readBytes 2 s_skip.2
        let s_time := readBytes 2 s_date.2
        let s_assoc := readBytes 8 s_time.2
        reaches_buffer_no_header fuel s_assoc.2
      else if header = 24 then false
      else
        let s_payload := readBytes (2 * (length - 1)) src1
        if header = 33 then true
        else if header = 25 then false
        else reaches_buffer_no_header fuel s_payload.2

/-- Sequence a list of optional values; `none` exactly when some element is
`none` (the shape of a Python loop that can raise at any element). -/
def optTraverse {α : Type} : List (Option α) → Option (List α)
  | [] => some []
  | x :: xs => x.bind (fun a => (optTraverse xs).map (fun bs => a :: bs))

/-- `log_mean` from pressure.py, modelled on the per-channel vectors the
Python code extracts with `get_data` before averaging (lines 24-35 of the
source).  Mirrors the Python control flow exactly: every loop runs over
`range(len(data[0]))`, so an index into a shorter later row raises
(`none`), while elements of a longer later row beyond `len(data[0])` are
silently ignored; `data[0]` itself is an out-of-range access when no rows
were given.  Each in-range value `v` becomes the power `10 ** (v / 10)`,
each band is averaged arithmetically over the rows with `statistics.mean`,
and the result is `10 * log10` of that mean.  Floating point is modelled
over `ℝ`. -/
noncomputable def log_mean (rows : List (List ℝ)) : Option (List ℝ) :=
  match rows with
  | [] => none
  | r0 :: _ =>
    optTraverse ((List.range r0.length).map (fun i =>
      (optTraverse (rows.map (fun row => row.get? i))).map (fun col =>
        10 * Real.logb 10 ((col.map (fun v => (10 : ℝ) ^ (v / 10))).sum / col.length))))

/-- A small main file: a terminal main-results record (tag 0x19) whose six
sub-records each declare 0 tercets and 0 totals, then a good trailer. -/
def src_main_small : List Nat :=
  List.replicate 32 0 ++ [25, 1] ++
    (List.replicate 6 ([16, 0, 0, 0, 0, 0, 0, 0] : List Nat)).flatten ++ [255, 255]

/-- A small buffer file: a buffer-header record (tag 0x18) declaring 1
sample, then the buffer-contents terminal record (tag 0x21) with enough
zero payload for any of the decodes considered here, then a good trailer. -/
def src_buffer_small : List Nat :=
  List.replicate 32 0 ++ [24, 9] ++ [0, 0, 0, 0, 100, 0, 0, 0, 0, 0, 1, 0, 0, 0] ++ [0, 0]
    ++ [33, 1] ++ List.replicate 300 0 ++ [255, 255]

/-- The parser state left behind by decoding `src_main_small`. -/
def state_after_main : ParserState :=
  { init_state with data := some [[], [], []], frequencies := 0, totals := 0 }

/-! ### Helper lemmas -/

set_option maxRecDepth 10000

theorem take_drop_eq_map_range (l : List ℚ) (i n : Nat) (h : i + n ≤ l.length) :
    (l.drop i).take n = (List.range n).map (fun j => l.getD (i + j) 0) := by
  apply List.ext_getElem
  · simp; omega
  · intro j h1 h2
    simp only [List.getElem_take, List.getElem_drop, List.getElem_map, List.getElem_range]
    rw [List.getD_eq_getElem]

theorem shape2ok_iff (r c : Nat) (m : List (List ℚ)) :
    shape2ok r c m = true ↔ m.length = r ∧ ∀ row ∈ m, row.length = c := by
  simp [shape2ok, List.all_eq_true]

theorem shape3ok_iff (a b c : Nat) (m : List (List (List ℚ))) :
    shape3ok a b c m = true ↔
      m.length = a ∧ ∀ plane ∈ m, shape2ok b c plane = true := by
  simp [shape3ok, List.all_eq_true]

theorem shape2ok_set2 (r c : Nat) (m : List (List ℚ)) (i j : Nat) (v : ℚ)
    (h : shape2ok r c m = true) : shape2ok r c (set2 m i j v) = true := by
  rw [shape2ok_iff] at h ⊢
  unfold set2
  by_cases hi : i < m.length
  · refine ⟨by simpa using h.1, ?_⟩
    intro row hrow
    rcases List.mem_or_eq_of_mem_set hrow with hrow' | rfl
    · exact h.2 row hrow'
    · rw [List.length_set, List.getD_eq_getElem m [] hi]
      exact h.2 _ (List.getElem_mem hi)
  · rw [List.set_eq_of_length_le (by omega)]
    exact h

theorem shape3ok_set3 (a b c : Nat) (m : List (List (List ℚ))) (ci i j : Nat) (v : ℚ)
    (h : shape3ok a b c m = true) : shape3ok a b c (set3 m ci i j v) = true := by
  rw [shape3ok_iff] at h ⊢
  unfold set3
  by_cases hc : ci < m.length
  · refine ⟨by simpa using h.1, ?_⟩
    intro plane hplane
    rcases List.mem_or_eq_of_mem_set hplane with hplane' | rfl
    · exact h.2 plane hplane'
    · rw [List.getD_eq_getElem m [] hc]
      exact shape2ok_set2 _ _ _ _ _ _ (h.2 _ (List.getElem_mem hc))
  · rw [List.set_eq_of_length_le (by omega)]
    exact h

theorem foldl_preserve {α β : Type} (P : α → Prop) (f : α → β → α)
    (hf : ∀ a b, P a → P (f a b)) (l : List β) (a : α) (h : P a) :
    P (l.foldl f a) := by
  induction l generalizing a with
  | nil => exact h
  | cons b l ih => exact ih (f a b) (hf a b h)

theorem shape2ok_replicate (r c : Nat) :
    shape2ok r c (List.replicate r (List.replicate c (0 : ℚ))) = true := by
  rw [shape2ok_iff]
  refine ⟨by simp, ?_⟩
  intro row hrow
  rw [List.eq_of_mem_replicate hrow]
  simp

theorem shape3ok_replicate (a b c : Nat) :
    shape3ok a b c (List.replicate a (List.replicate b (List.replicate c (0 : ℚ)))) = true := by
  rw [shape3ok_iff]
  refine ⟨by simp, ?_⟩
  intro plane hplane
  rw [List.eq_of_mem_replicate hplane]
  exact shape2ok_replicate b c

theorem leq_fold_shape (S sample : Nat) (l : List Nat) (p : List (List ℚ) × List Nat)
    (h : shape2ok 3 S p.1 = true) :
    shape2ok 3 S ((l.foldl (buffer_leq_step sample) p).1) = true :=
  foldl_preserve (fun q : List (List ℚ) × List Nat => shape2ok 3 S q.1 = true)
    (buffer_leq_step sample)
    (fun q b hq => by unfold buffer_leq_step; exact shape2ok_set2 _ _ _ _ _ _ hq) l p h

theorem values_fold_shape (ft S channel sample : Nat) (l : List Nat)
    (p : List (List (List ℚ)) × List Nat) (h : shape3ok 3 ft S p.1 = true) :
    shape3ok 3 ft S ((l.foldl (buffer_values_step channel sample) p).1) = true :=
  foldl_preserve (fun q : List (List (List ℚ)) × List Nat => shape3ok 3 ft S q.1 = true)
    (buffer_values_step channel sample)
    (fun q b hq => by unfold buffer_values_step; exact shape3ok_set3 _ _ _ _ _ _ _ _ hq) l p h

theorem channel_fold_shape (ft S sample : Nat) (l : List Nat)
    (p : List (List (List ℚ)) × List Nat) (h : shape3ok 3 ft S p.1 = true) :
    shape3ok 3 ft S ((l.foldl (buffer_channel_step ft sample) p).1) = true :=
  foldl_preserve (fun q : List (List (List ℚ)) × List Nat => shape3ok 3 ft S q.1 = true)
    (buffer_channel_step ft sample)
    (fun q b hq => by
      unfold buffer_channel_step
      exact values_fold_shape ft S b sample (List.range ft) (q.1, (readBytes 2 q.2).2) hq)
    l p h

theorem sample_fold_shape (ft S : Nat) (samples : List Nat)
    (acc : (List (List ℚ) × List (List (List ℚ))) × List Nat)
    (hleq : shape2ok 3 S acc.1.1 = true) (hsd : shape3ok 3 ft S acc.1.2 = true) :
    shape2ok 3 S (samples.foldl (buffer_sample_step ft) acc).1.1 = true ∧
    shape3ok 3 ft S (samples.foldl (buffer_sample_step ft) acc).1.2 = true := by
  refine foldl_preserve
    (fun q : (List (List ℚ) × List (List (List ℚ))) × List Nat =>
      shape2ok 3 S q.1.1 = true ∧ shape3ok 3 ft S q.1.2 = true)
    (buffer_sample_step ft) ?_ samples acc ⟨hleq, hsd⟩
  intro q sample hq
  unfold buffer_sample_step
  dsimp only
  exact ⟨leq_fold_shape S sample (List.range 3) (q.1.1, q.2) hq.1,
    channel_fold_shape ft S sample (List.range 3)
      (q.1.2, ((List.range 3).foldl (buffer_leq_step sample) (q.1.1, q.2)).2) hq.2⟩

theorem read_buffer_contents_shape (st : ParserState) (src : List Nat) :
    (read_buffer_contents st src).1.sampled_data.map
        (shape3ok 3 (st.frequencies + 3).toNat st.samples.toNat) = some true ∧
    (read_buffer_contents st src).1.leq.map (shape2ok 3 st.samples.toNat) = some true ∧
    (read_buffer_contents st src).1.samples = st.samples ∧
    (read_buffer_contents st src).1.frequencies = st.frequencies ∧
    (read_buffer_contents st src).1.step = st.step ∧
    (read_buffer_contents st src).1.channels = 3 ∧
    (read_buffer_contents st src).1.totals = 3 := by
  have h := sample_fold_shape (st.frequencies + 3).toNat st.samples.toNat
    (List.range st.samples.toNat)
    ((List.replicate 3 (List.replicate st.samples.toNat (0 : ℚ)),
      List.replicate 3 (List.replicate (st.frequencies + 3).toNat
        (List.replicate st.samples.toNat (0 : ℚ)))), src)
    (shape2ok_replicate 3 st.samples.toNat)
    (shape3ok_replicate 3 (st.frequencies + 3).toNat st.samples.toNat)
  exact ⟨congrArg some h.2, congrArg some h.1, rfl, rfl, rfl, rfl, rfl⟩

theorem optTraverse_map_none_iff {α β : Type} (l : List α) (f : α → Option β) :
    optTraverse (l.map f) = none ↔ ∃ x ∈ l, f x = none := by
  induction l with
  | nil => simp [optTraverse]
  | cons a l ih =>
    simp only [List.map_cons, optTraverse]
    cases hfa : f a with
    | none => exact iff_of_true rfl ⟨a, List.mem_cons_self a l, hfa⟩
    | some b => simp [hfa, ih]

theorem optTraverse_map_some {α β : Type} (l : List α) (f : α → Option β) (g : α → β)
    (h : ∀ x ∈ l, f x = some (g x)) : optTraverse (l.map f) = some (l.map g) := by
  induction l with
  | nil => rfl
  | cons a l ih =>
    have ha := h a (List.mem_cons_self a l)
    have hl := ih (fun x hx => h x (List.mem_cons_of_mem a hx))
    simp only [List.map_cons, optTraverse, ha, hl, Option.some_bind]
    rfl

theorem optTraverse_replicate_some {α : Type} (n : Nat) (a : α) :
    optTraverse (List.replicate n (some a)) = some (List.replicate n a) := by
  induction n with
  | zero => rfl
  | succ n ih => simp [List.replicate_succ, optTraverse, ih]

theorem log_mean_cons (r0 : List ℝ) (rest : List (List ℝ)) :
    log_mean (r0 :: rest) =
      optTraverse ((List.range r0.length).map (fun i =>
        (optTraverse ((r0 :: rest).map (fun row => row.get? i))).map (fun col =>
          10 * Real.logb 10
            ((col.map (fun v => (10 : ℝ) ^ (v / 10))).sum / col.length)))) := rfl

theorem map_getD_range_eq_self (v : List ℝ) :
    (List.range v.length).map (fun i => v.getD i 0) = v := by
  induction v with
  | nil => simp
  | cons a t ih =>
    simp only [List.length_cons, List.range_succ_eq_map, List.map_cons, List.map_map,
      Function.comp_def, List.getD_cons_zero, List.getD_cons_succ]
    rw [ih]

/-! ### Claims -/

/-- **C1** (corrected).  The claim that every short read aborts the decode
with a `TruncationError` is false: `file.read` returns whatever remains and
`int.from_bytes` of a short or empty read silently yields the value of the
returned bytes (zero when empty).  A record promising sub-records beyond
the end of the source decodes to completion — `load` returns a result, the
tercet/total counts read past the end become 0, and only the trailer check
reports failure. -/
theorem short_reads_parse_as_zero :
    (∀ n : Int, parse_bytes (readBytes n []).1 = 0) ∧
    load 2 init_state (List.replicate 32 0 ++ [25, 1]) =
      some ({ init_state with data := some [[], [], []],
                              frequencies := 0, totals := 0 }, false) := by
  constructor
  · intro n
    unfold readBytes
    split <;> simp [parse_bytes, from_bytes_le]
  · decide

/-- **C1** counterexample: a source that ends immediately after a
main-results record header is decoded without any error — `load` completes
and returns `false` only because of the trailer sentinel, with the counts
that were read past the end of the source silently equal to 0. -/
theorem truncated_decode_completes :
    load 2 init_state (List.replicate 32 0 ++ [25, 1]) ≠ none ∧
    (load 2 init_state (List.replicate 32 0 ++ [25, 1])).map
      (fun r => r.1.frequencies) = some 0 := by decide

/-- **C2** (confirmed).  Dispatch-loop length semantics: (a) a container
tag in {7, 9, 14} consumes exactly 2 further bytes after the tag and
declared-length bytes, honouring no length field (in particular no 2-byte
extended length is read even when the declared length byte is 0); (b) an
unhandled tag with declared length `l ≠ 0` skips exactly `2*(l-1)` payload
bytes; (c) an unhandled tag with declared length 0 reads the 2-byte
little-endian extended value `e`, takes effective length `e - 1`, and
skips `2*(e - 1 - 1)` payload bytes. -/
theorem dispatch_length_semantics :
    (∀ (fuel : Nat) (st : ParserState) (t l : Nat) (rest : List Nat),
      t ∈ CONTAINERS →
      load_loop (fuel + 1) st (t :: l :: rest) = load_loop fuel st (rest.drop 2)) ∧
    (∀ (fuel : Nat) (st : ParserState) (t l : Nat) (rest : List Nat),
      t ∉ CONTAINERS → t ≠ 1 → t ≠ 24 → t ≠ 25 → t ≠ 33 → l ≠ 0 →
      load_loop (fuel + 1) st (t :: l :: rest) =
        load_loop fuel st (rest.drop (2 * (l - 1)))) ∧
    (∀ (fuel : Nat) (st : ParserState) (t e0 e1 : Nat) (rest : List Nat),
      t ∉ CONTAINERS → t ≠ 1 → t ≠ 24 → t ≠ 25 → t ≠ 33 → 2 ≤ e0 + 256 * e1 →
      load_loop (fuel + 1) st (t :: 0 :: e0 :: e1 :: rest) =
        load_loop fuel st (rest.drop (2 * (e0 + 256 * e1 - 2)))) := by
  refine ⟨?_, ?_, ?_⟩
  · intro fuel st t l rest ht
    simp [load_loop, readBytes, from_bytes_le, ht]
  · intro fuel st t l rest ht h1 h24 h25 h33 hl
    have htn : (2 * ((l : Int) - 1)).toNat = 2 * (l - 1) := by omega
    have hneg : ¬ (2 * ((l : Int) - 1) < 0) := by omega
    simp [load_loop, readBytes, from_bytes_le, ht, h1, h24, h25, h33, hl, hneg, htn]
  · intro fuel st t e0 e1 rest ht h1 h24 h25 h33 he
    have htn : (2 * ((e0 : Int) + 256 * (e1 : Int) - 1 - 1)).toNat =
        2 * (e0 + 256 * e1 - 2) := by omega
    have hneg : ¬ (2 * ((e0 : Int) + 256 * (e1 : Int) - 1 - 1) < 0) := by omega
    simp [load_loop, readBytes, from_bytes_le, ht, h1, h24, h25, h33, hneg, htn]

/-- **C2** witness: a container record (tag 7) skips exactly 2 bytes; an
unhandled tag with declared length 3 skips exactly 4 payload bytes; an
unhandled tag with declared length 0 and extended length 5 skips exactly
`2*(5-1-1) = 6` payload bytes. -/
theorem dispatch_length_semantics_witness :
    load_loop 1 init_state (7 :: 0 :: [1, 2, 3, 4]) = load_loop 0 init_state [3, 4] ∧
    load_loop 1 init_state (2 :: 3 :: [1, 2, 3, 4, 5, 6]) = load_loop 0 init_state [5, 6] ∧
    load_loop 1 init_state (48 :: 0 :: 5 :: 0 :: [1, 2, 3, 4, 5, 6, 7, 8]) =
      load_loop 0 init_state [7, 8] := by
  refine ⟨?_, ?_, ?_⟩
  · have := dispatch_length_semantics.1 0 init_state 7 0 [1, 2, 3, 4] (by decide)
    simpa using this
  · have := dispatch_length_semantics.2.1 0 init_state 2 3 [1, 2, 3, 4, 5, 6]
      (by decide) (by decide) (by decide) (by decide) (by decide) (by decide)
    simpa using this
  · have := dispatch_length_semantics.2.2 0 init_state 48 5 0 [1, 2, 3, 4, 5, 6, 7, 8]
      (by decide) (by decide) (by decide) (by decide) (by decide) (by decide)
    simpa using this

/-- **C3** (corrected).  The file-header record (tag 0x01) consumes 8
*bytes* (4 little-endian 16-bit code units) for the file name, skips 2
bytes, reads 2 bytes of date code and 2 bytes of time code, and consumes 8
bytes for the associated file name — 22 payload bytes in total, not the 38
bytes the claim's 8-code-unit reading would imply. -/
theorem file_header_record_shape (fuel : Nat) (st : ParserState) (l : Nat)
    (rest : List Nat) (hl : l ≠ 0) :
    load_loop (fuel + 1) st (1 :: l :: rest) =
      load_loop fuel
        { st with file := rest.take 8,
                  date := some (decompress_date (parse_bytes ((rest.drop 10).take 2))),
                  time := some (decompress_time (parse_bytes ((rest.drop 12).take 2))),
                  associated_file := (rest.drop 14).take 8 }
        (rest.drop 22) := by
  simp [load_loop, readBytes, from_bytes_le, hl, List.drop_drop, CONTAINERS]

/-- **C3** witness: the file-header equation at a concrete record. -/
theorem file_header_record_shape_witness :
    load_loop 2 init_state (1 :: 9 :: (List.range 22 ++ [25, 9])) =
      load_loop 1
        { init_state with
            file := ((List.range 22 ++ [25, 9]).take 8 : List Nat),
            date := some (decompress_date (parse_bytes (((List.range 22 ++ [25, 9]).drop 10).take 2))),
            time := some (decompress_time (parse_bytes (((List.range 22 ++ [25, 9]).drop 12).take 2))),
            associated_file := ((List.range 22 ++ [25, 9]).drop 14).take 8 }
        ((List.range 22 ++ [25, 9]).drop 22) :=
  file_header_record_shape 1 init_state 9 (List.range 22 ++ [25, 9]) (by decide)

/-- **C3** counterexample: a source whose 0x01 record is followed, 22
payload bytes later, by a terminal main-results record is decoded with the
file name equal to the first 8 payload *bytes* and the dispatch loop
resuming at offset 22; the whole source is shorter than the 38-byte
payload the claim asserts, so the claimed shape cannot describe this
decode. -/
theorem file_header_consumes_22_bytes_cex :
    load_loop 2 init_state (1 :: 9 :: (List.range 22 ++ [25, 9])) =
      some (read_main_contents
        { init_state with file := [0, 1, 2, 3, 4, 5, 6, 7],
                          date := some (decompress_date (parse_bytes [10, 11])),
                          time := some (decompress_time (parse_bytes [12, 13])),
                          associated_file := [14, 15, 16, 17, 18, 19, 20, 21] } []) ∧
    (1 :: 9 :: (List.range 22 ++ [25, 9])).length < 2 + 38 := by decide

/-- **C8** (corrected).  The time-code round trip holds exactly when the
code `1800*hour + 30*minute + second/2` fits in a signed 16-bit word
(< 32768); `decompress_time` applied to the signed parse of the code's
2-byte little-endian representation then returns `(hour, minute, second)`. -/
theorem time_code_roundtrip (h m s : Nat) (_hh : h ≤ 23) (hm : m ≤ 59) (hs : s ≤ 58)
    (he : s % 2 = 0) (hcode : 1800 * h + 30 * m + s / 2 < 32768) :
    decompress_time (parse_bytes
      [(1800 * h + 30 * m + s / 2) % 256, (1800 * h + 30 * m + s / 2) / 256]) =
      ((h : Int), (m : Int), (s : Int)) := by
  have hparse : parse_bytes
      [(1800 * h + 30 * m + s / 2) % 256, (1800 * h + 30 * m + s / 2) / 256] =
      ((1800 * h + 30 * m + s / 2 : Nat) : Int) := by
    simp only [parse_bytes, from_bytes_le, List.length_cons, List.length_nil]
    have hu : (1800 * h + 30 * m + s / 2) % 256 +
        256 * ((1800 * h + 30 * m + s / 2) / 256 + 256 * 0) =
        1800 * h + 30 * m + s / 2 := by omega
    rw [hu]
    rw [if_pos (by norm_num; omega)]
  rw [hparse]
  simp only [decompress_time, Prod.mk.injEq]
  refine ⟨?_, ?_, ?_⟩ <;> omega

/-- **C8** witness: the round trip at 12:34:56 (code 22648 = `0x5878`). -/
theorem time_code_roundtrip_witness :
    decompress_time (parse_bytes [(1800 * 12 + 30 * 34 + 56 / 2) % 256,
      (1800 * 12 + 30 * 34 + 56 / 2) / 256]) = (12, 34, 56) :=
  time_code_roundtrip 12 34 56 (by decide) (by decide) (by decide) (by decide) (by decide)

/-- **C8** counterexample: 23:00:00 encodes as code 41400 = `0xA1B8`,
whose 2-byte little-endian representation `[184, 161]` parses *signed* to
−24136 in the file-header path, and the decode returns (−14, 35, 28), not
(23, 0, 0). -/
theorem time_code_signed_parse_cex :
    from_bytes_le [184, 161] = 1800 * 23 + 30 * 0 + 0 / 2 ∧
    decompress_time (parse_bytes [184, 161]) ≠ ((23 : Int), (0 : Int), (0 : Int)) ∧
    decompress_time (parse_bytes [184, 161]) = (-14, 35, 28) := by decide

/-- **C9** (confirmed).  On a 48-element level vector the band selector
returns the elements at indices 18 through 38 (21 elements) followed by
the final 3 elements (indices 45, 46, 47). -/
theorem band_select_spec (row : List ℚ) (h48 : row.length = 48) :
    band_select row =
      (List.range 21).map (fun i => row.getD (18 + i) 0) ++
      (List.range 3).map (fun i => row.getD (45 + i) 0) := by
  unfold band_select
  rw [h48]
  show (row.drop 18).take 21 ++ row.drop 45 = _
  rw [take_drop_eq_map_range row 18 21 (by omega)]
  have hdrop : row.drop 45 = (row.drop 45).take 3 := by
    rw [List.take_of_length_le]; simp [h48]
  rw [hdrop, take_drop_eq_map_range row 45 3 (by omega)]

/-- **C9** witness: on the vector whose element `i` equals `i`, the band
selector returns exactly `[18, …, 38, 45, 46, 47]`. -/
theorem band_select_spec_witness :
    band_select ((List.range 48).map (fun i => (i : ℚ))) =
      [18, 19, 20, 21, 22, 23, 24, 25, 26, 27, 28, 29, 30, 31, 32, 33,
       34, 35, 36, 37, 38, 45, 46, 47] := by
  rw [band_select_spec _ (by decide)]
  decide

/-- **C4** (corrected).  A decode is *not* independent of parser state left
by earlier decodes: `read_buffer_contents` shapes its `sampled_data` as
`3 × (frequencies + 3) × samples` and its `leq` as `3 × samples` from the
*current* parser state, whose `frequencies` and `samples` fields are
whatever the last decoded file left behind. -/
theorem buffer_decode_uses_current_state (st : ParserState) (src : List Nat) :
    (read_buffer_contents st src).1.sampled_data.map
        (shape3ok 3 (st.frequencies + 3).toNat st.samples.toNat) = some true ∧
    (read_buffer_contents st src).1.leq.map (shape2ok 3 st.samples.toNat) = some true ∧
    (read_buffer_contents st src).1.frequencies = st.frequencies ∧
    (read_buffer_contents st src).1.samples = st.samples :=
  ⟨(read_buffer_contents_shape st src).1, (read_buffer_contents_shape st src).2.1,
   (read_buffer_contents_shape st src).2.2.2.1, (read_buffer_contents_shape st src).2.2.1⟩

/-- **C4** counterexample: decoding `src_main_small` first leaves the
parser in `state_after_main` (tercet count 0); decoding the *same* buffer
source `src_buffer_small` from a fresh parser and from `state_after_main`
then yields different `sampled_data` (48 band rows versus 3), so a decode
does consult state left by a prior decode. -/
theorem decode_depends_on_prior_state_cex :
    load 3 init_state src_main_small = some (state_after_main, true) ∧
    (load 3 init_state src_buffer_small).map (fun r => r.1.sampled_data) ≠
      (load 3 state_after_main src_buffer_small).map (fun r => r.1.sampled_data) := by
  constructor
  · decide
  · decide

/-- **C5** (corrected).  `log_mean` performs no length check and raises no
`LengthMismatchError`: it fails (an uncaught `IndexError`, modelled as
`none`) exactly when some input vector is *shorter* than the first one,
and otherwise succeeds — in particular collections of unequal-length
vectors whose later vectors are longer are averaged without any error,
the extra elements silently ignored. -/
theorem log_mean_no_length_check (r0 : List ℝ) (rest : List (List ℝ)) :
    log_mean (r0 :: rest) = none ↔ ∃ r ∈ r0 :: rest, r.length < r0.length := by
  rw [log_mean_cons, optTraverse_map_none_iff]
  constructor
  · rintro ⟨i, hi, hfi⟩
    rw [Option.map_eq_none', optTraverse_map_none_iff] at hfi
    obtain ⟨row, hrow, hget⟩ := hfi
    rw [List.get?_eq_none] at hget
    exact ⟨row, hrow, lt_of_le_of_lt hget (List.mem_range.mp hi)⟩
  · rintro ⟨row, hrow, hlen⟩
    refine ⟨row.length, List.mem_range.mpr hlen, ?_⟩
    rw [Option.map_eq_none', optTraverse_map_none_iff]
    exact ⟨row, hrow, List.get?_eq_none.mpr le_rfl⟩

/-- **C5** counterexample: the vectors `[0]` and `[0, 0]` have different
lengths, yet `log_mean` succeeds on them (no error of any kind is raised),
refuting the claim that averaging vectors of different lengths fails. -/
theorem log_mean_length_mismatch_cex :
    ([(0 : ℝ)] : List ℝ).length ≠ ([(0 : ℝ), 0] : List ℝ).length ∧
    log_mean [[(0 : ℝ)], [0, 0]] ≠ none := by
  refine ⟨by simp, ?_⟩
  rw [log_mean_cons]
  simp [optTraverse, List.range_succ]

/-- **C7** (confirmed).  The log-energy average of `N ≥ 1` identical dB
vectors is the vector itself: per band the powers `10 ^ (v / 10)` are
averaged arithmetically and `10 * log10` is applied, and for `N` equal
values this returns the original value exactly. -/
theorem log_mean_idempotent (N : Nat) (v : List ℝ) (hN : 1 ≤ N) :
    log_mean (List.replicate N v) = some v := by
  obtain ⟨n, rfl⟩ : ∃ n, N = n + 1 := ⟨N - 1, by omega⟩
  rw [List.replicate_succ, log_mean_cons]
  have hmain : ∀ i ∈ List.range v.length,
      (optTraverse ((v :: List.replicate n v).map (fun row => row.get? i))).map
        (fun col => 10 * Real.logb 10
          ((col.map (fun w => (10 : ℝ) ^ (w / 10))).sum / col.length)) =
      some (v.getD i 0) := by
    intro i hi
    have hiv : i < v.length := List.mem_range.mp hi
    have hget : v.get? i = some (v.getD i 0) := by
      rw [List.get?_eq_getElem?, List.getElem?_eq_getElem hiv, List.getD_eq_getElem v 0 hiv]
    have hmap : (v :: List.replicate n v).map (fun row => row.get? i) =
        List.replicate (n + 1) (some (v.getD i 0)) := by
      rw [← List.replicate_succ, List.map_replicate, hget]
    rw [hmap, optTraverse_replicate_some]
    show some _ = some _
    congr 1
    dsimp only
    rw [List.map_replicate, List.sum_replicate, List.length_replicate, nsmul_eq_mul]
    rw [mul_div_cancel_left₀ _ (by positivity : ((n + 1 : ℕ) : ℝ) ≠ 0)]
    rw [Real.logb_rpow (by norm_num) (by norm_num)]
    ring
  rw [optTraverse_map_some _ _ (fun i => v.getD i 0) hmain, map_getD_range_eq_self]

/-- **C7** witness: the log-energy mean of `[10 dB]` with `[10 dB]` is
exactly `[10 dB]`. -/
theorem log_mean_idempotent_witness :
    log_mean [[(10 : ℝ)], [10]] = some [10] := by
  have hrep : List.replicate 2 [(10 : ℝ)] = [[10], [10]] := rfl
  rw [← hrep]
  exact log_mean_idempotent 2 [(10 : ℝ)] (by norm_num)

/-- **C6** (confirmed).  Whenever the dispatch loop finishes with state
`st2` and remainder `rest`, `load` reads 2 trailing bytes from `rest` and
returns `(st2, true)` exactly when they equal `FF FF`, and `(st2, false)`
otherwise — in both cases the state (all fields populated before the
trailer check) is returned unchanged, so a bad trailer does not abort the
decode or discard decoded fields. -/
theorem trailer_check (fuel : Nat) (st st2 : ParserState) (src rest : List Nat)
    (h : load_loop fuel st ((readBytes 32 src).2) = some (st2, rest)) :
    (load fuel st src = some (st2, true) ↔ (readBytes 2 rest).1 = [255, 255]) ∧
    (load fuel st src = some (st2, false) ↔ (readBytes 2 rest).1 ≠ [255, 255]) := by
  by_cases hb : (readBytes 2 rest).1 = [255, 255]
  · simp [load, h, hb]
  · simp [load, h, hb]

/-- **C6** witness: the trailer characterization at a concrete decode that
ends with no trailer bytes (so the sentinel check fails, `load` reports
`false`, and the fields decoded before the check are still returned). -/
theorem trailer_check_witness :
    (load 2 init_state (List.replicate 32 0 ++ [25, 1]) =
        some ({ init_state with data := some [[], [], []],
                                frequencies := 0, totals := 0 }, true) ↔
      (readBytes 2 ([] : List Nat)).1 = [255, 255]) ∧
    (load 2 init_state (List.replicate 32 0 ++ [25, 1]) =
        some ({ init_state with data := some [[], [], []],
                                frequencies := 0, totals := 0 }, false) ↔
      (readBytes 2 ([] : List Nat)).1 ≠ [255, 255]) :=
  trailer_check 2 init_state
    { init_state with data := some [[], [], []], frequencies := 0, totals := 0 }
    (List.replicate 32 0 ++ [25, 1]) [] (by decide)

/-- **C10** (confirmed).  If the dispatch traversal reaches the
buffer-contents terminal record (tag 0x21) without meeting any
buffer-header record (tag 0x18), then starting from a state carrying the
constructor defaults (160 samples, 45 bands, 100 ms step) the decode does
not fail: the loop returns a state whose `sampled_data` has shape
`3 × 48 × 160`, whose `leq` has shape `3 × 160`, and whose configuration
is still the defaults (3 channels, 160 samples, 45 bands + 3 totals,
100 ms step). -/
theorem missing_buffer_header_uses_defaults (fuel : Nat) (st : ParserState)
    (src : List Nat) (hsam : st.samples = 160) (hfreq : st.frequencies = 45)
    (hstep : st.step = 100) (hreach : reaches_buffer_no_header fuel src = true) :
    (load_loop fuel st src).map (fun r =>
        (r.1.sampled_data.map (shape3ok 3 48 160), r.1.leq.map (shape2ok 3 160),
         r.1.samples, r.1.frequencies, r.1.channels, r.1.totals, r.1.step)) =
      some (some true, some true, 160, 45, 3, 3, 100) := by
  induction fuel generalizing st src with
  | zero => simp [reaches_buffer_no_header] at hreach
  | succ fuel ih =>
    by_cases hc : from_bytes_le (readBytes 1 src).1 ∈ CONTAINERS
    · simp only [reaches_buffer_no_header, hc, if_true] at hreach
      simp only [load_loop, hc, if_true]
      exact ih _ _ hsam hfreq hstep hreach
    · by_cases h1 : from_bytes_le (readBytes 1 src).1 = 1
      · simp only [reaches_buffer_no_header, hc, h1, if_true, if_false] at hreach
        simp only [load_loop, hc, h1, if_true, if_false]
        exact ih _ _ hsam hfreq hstep hreach
      · by_cases h24 : from_bytes_le (readBytes 1 src).1 = 24
        · simp only [reaches_buffer_no_header, hc, h1, h24, if_true, if_false] at hreach
          cases hreach
        · by_cases h33 : from_bytes_le (readBytes 1 src).1 = 33
          · have key : ∀ s2 : List Nat,
                Option.map (fun r : ParserState × List Nat =>
                    (r.1.sampled_data.map (shape3ok 3 48 160),
                     r.1.leq.map (shape2ok 3 160),
                     r.1.samples, r.1.frequencies, r.1.channels, r.1.totals, r.1.step))
                  (some (read_buffer_contents st s2)) =
                  some (some true, some true, 160, 45, 3, 3, 100) := by
              intro s2
              have hsh := read_buffer_contents_shape st s2
              rw [hfreq, hsam, hstep] at hsh
              rw [show ((45 : Int) + 3).toNat = 48 from by decide,
                  show ((160 : Int)).toNat = 160 from by decide] at hsh
              rw [Option.map_some']
              rw [hsh.1, hsh.2.1, hsh.2.2.1, hsh.2.2.2.1, hsh.2.2.2.2.1,
                  hsh.2.2.2.2.2.1, hsh.2.2.2.2.2.2]
            simp only [load_loop]
            rw [if_neg hc, if_neg h1, if_neg h24, if_pos h33]
            exact key _
          · by_cases h25 : from_bytes_le (readBytes 1 src).1 = 25
            · simp only [reaches_buffer_no_header, hc, h1, h24, h33, h25,
                if_true, if_false] at hreach
              cases hreach
            · simp only [reaches_buffer_no_header, hc, h1, h24, h33, h25,
                if_true, if_false] at hreach
              simp only [load_loop, hc, h1, h24, h33, h25, if_true, if_false]
              exact ih _ _ hsam hfreq hstep hreach

/-- **C10** witness: a source consisting of exactly the buffer-contents
terminal record reaches the buffer decode with no buffer header, and the
decode from the constructor defaults yields the default `3 × 48 × 160`
shape. -/
theorem missing_buffer_header_uses_defaults_witness :
    reaches_buffer_no_header 1 [33, 1] = true ∧
    (load_loop 1 init_state [33, 1]).map (fun r =>
        (r.1.sampled_data.map (shape3ok 3 48 160), r.1.leq.map (shape2ok 3 160),
         r.1.samples, r.1.frequencies, r.1.channels, r.1.totals, r.1.step)) =
      some (some true, some true, 160, 45, 3, 3, 100) :=
  ⟨by decide,
   missing_buffer_header_uses_defaults 1 init_state [33, 1] rfl (by decide) rfl (by decide)⟩
